import Mathlib

/-!
Shallow embedding of `nursery/tmp_plan/src/requirements.rs` from the bdk
repository: the `Requirements` / `RequiredSignatures` data model and the
`sign_with_keymap` signing dispatcher, together with proofs about them.

The module's own code is translated directly.  The external collaborators it
calls (rust-bitcoin sighash computation, secp256k1 key operations, bip32
derivation) are modelled by executable stand-ins that preserve exactly the
structure the code relies on: secp256k1 scalars are naturals modulo the group
order `N`; a public key is determined by its secret scalar; the two scalars
`k` and `N - k` share one x-only key and have opposite y-parities (true in the
real group since `N` is odd, modelled here by the parity of the scalar); the
taproot tweak hash is a deterministic function of the x-only key and the
optional merkle root; BIP340 Schnorr signing is deterministic in the message,
the (even-y-normalized) secret scalar, and the auxiliary randomness, with the
`no_aux_rand` entry point fixing the auxiliary randomness to zero.

Rust `todo!()` and `unwrap()` panics are modelled by an explicit `panic`
outcome of the dispatcher, distinct from `Ok`/`Err` returns.
-/

/-- The order of the secp256k1 group (a fixed odd prime). -/
def N : Nat :=
  115792089237316195423570985008687907852837564279074904382605163141518161494337

/-- Model of `miniscript::DescriptorPublicKey`: an identifier, used both as
the key-store lookup identity (`asset_key`) and as the recording identity
(`descriptor_key`). -/
abbrev DescriptorPublicKey := Nat

/-- Model of `taproot::TapNodeHash` (the merkle root of a taproot script tree). -/
abbrev TapNodeHash := Nat

/-- Model of `TapLeafHash` (commitment to one taproot leaf script). -/
abbrev TapLeafHash := Nat

/-- Model of a `bip32::DerivationPath`: a list of child indices. -/
abbrev DerivationPath := List Nat

/-- Model of the prevout set handed to the sighash engine
(`Prevouts<'_, impl Borrow<TxOut>>`); its contents only matter to the digest
engine, so it is kept as an identifier. -/
abbrev Prevouts := Nat

/-- Model of `sighash::TaprootError`: the digest engine's failure payload,
kept as a code since only its identity matters to `sign_with_keymap`. -/
structure TaprootError where
  code : Nat
deriving DecidableEq, Repr

/-- Model of `sighash::P2wpkhError`. -/
structure P2wpkhError where
  code : Nat
deriving DecidableEq, Repr

/-- Model of `bip32::Error`: the failure payload of hierarchical derivation. -/
structure Bip32Error where
  code : Nat
deriving DecidableEq, Repr

/-- `TapSighashType` from rust-bitcoin (the taproot sighash modes). -/
inductive TapSighashType where
  | Default
  | All
  | NoneTy
  | Single
  | AllPlusAnyoneCanPay
  | NonePlusAnyoneCanPay
  | SinglePlusAnyoneCanPay
deriving DecidableEq, Repr

/-- Model of `EcdsaSighashType`; `sign_with_keymap` receives it as
`_ecdsa_sighashty` and never reads it. -/
abbrev EcdsaSighashType := Nat

/-- Even-y normalization of a secret scalar: the scalar whose point has an
even y-coordinate among `{k, N - k}`.  Since `N` is odd, exactly one of `k`
and `N - k` is even, which the model uses as the parity of the point. -/
def evenNorm (k : Nat) : Nat :=
  if k % N % 2 = 0 then k % N else (N - k % N) % N

/-- Model of `PublicKey::from_secret_key`: a public key is determined by the
secret scalar modulo the group order. -/
def publicKeyFromSecret (k : Nat) : Nat := k % N

/-- Model of `XOnlyPublicKey::from(pubkey)`: the x-only key identifies the
pair `{p, N - p}` (two points sharing an x-coordinate); represented by the
smaller element of the pair. -/
def xOnlyFromPublicKey (p : Nat) : Nat :=
  min (p % N) ((N - p % N) % N)

/-- Model of `TapTweakHash::from_key_and_tweak(x_only, merkle_root).to_scalar()`:
a deterministic hash of the x-only internal key and the optional merkle root,
reduced to a scalar; the absent and present merkle-root cases are encoded
distinctly, as in BIP341. -/
def tapTweakHash (xonly : Nat) (merkle_root : Option TapNodeHash) : Nat :=
  ((xonly + 2) * 2 ^ 257 + (match merkle_root with
    | none => 0
    | some h => h + 1)) % N

/-- Model of `Keypair::add_xonly_tweak`: negate the secret if its point has
odd y (even-y normalization), add the tweak scalar modulo `N`; fails (the
source calls `.unwrap()` on it) when the result is the zero scalar. -/
def addXonlyTweak (k tweak : Nat) : Option Nat :=
  let r := (evenNorm k + tweak) % N
  if r = 0 then none else some r

/-- A BIP340 Schnorr signature is determined by the signed message, the
even-y-normalized secret scalar, and the auxiliary randomness; the model keeps
those three determining inputs as the signature value. -/
structure SchnorrSig where
  msg : Nat
  key : Nat
  aux : Nat
deriving DecidableEq, Repr

/-- Model of `sign_schnorr` with explicit auxiliary randomness. -/
def signSchnorrWithAuxRand (msg k aux : Nat) : SchnorrSig :=
  ⟨msg, evenNorm k, aux⟩

/-- Model of `secp.sign_schnorr_no_aux_rand`: BIP340 signing with the
auxiliary randomness fixed to zero, hence deterministic. -/
def signSchnorrNoAuxRand (msg k : Nat) : SchnorrSig :=
  signSchnorrWithAuxRand msg k 0

/-- `taproot::Signature`: a Schnorr signature tagged with its sighash mode. -/
structure TapSignature where
  signature : SchnorrSig
  sighash_type : TapSighashType
deriving DecidableEq, Repr

/-- Model of `miniscript::descriptor::DescriptorSecretKey`: a raw single
secret key, an extended private key (derivation root), or a multi-path
derivation root (unsupported by the source). -/
inductive DescriptorSecretKey where
  /-- `Single`: the stored `single.key.inner` secret scalar. -/
  | Single : Nat → DescriptorSecretKey
  /-- `XPrv`: a derivation root; the model keeps the root scalar `xprv.xkey`. -/
  | XPrv : Nat → DescriptorSecretKey
  /-- `MultiXPrv`: a multi-path derivation root. -/
  | MultiXPrv : Nat → DescriptorSecretKey
deriving DecidableEq, Repr

/-- `KeyMap`: the key store, a map from `DescriptorPublicKey` to
`DescriptorSecretKey`, modelled as an association list. -/
abbrev KeyMap := List (DescriptorPublicKey × DescriptorSecretKey)

/-- Map lookup on the key store (`keymap.get`). -/
def keymapGet (km : KeyMap) (k : DescriptorPublicKey) : Option DescriptorSecretKey :=
  match km with
  | [] => none
  | (k', v) :: rest => if k' = k then some v else keymapGet rest k

/-- Modelled from the spec: one child-derivation step of the external bip32
`derive(root, path)` collaborator (`Xpriv::derive_priv` is not under `src/`).
Deterministic in the parent scalar and child index; fails with a
`DerivationError` payload when the child index is not a valid `ChildNumber`
(at least `2^32`). -/
def ckdPriv (k i : Nat) : Except Bip32Error Nat :=
  if i < 2 ^ 32 then Except.ok ((k + (k + i + 1) * (i + 2)) % N)
  else Except.error ⟨i⟩

/-- Model of `xprv.xkey.derive_priv(secp, path)`: fold the child-derivation
step over the path, short-circuiting on the first failure. -/
def derivePriv (k : Nat) : DerivationPath → Except Bip32Error Nat
  | [] => Except.ok k
  | i :: rest =>
    match ckdPriv k i with
    | Except.ok k2 => derivePriv k2 rest
    | Except.error e => Except.error e

/-- Modelled from the spec: `PlanKey` (the spec's Key Reference), defined in
the plan module of this crate which is not under `src/`: `asset_key` is the
lookup identity into the key store, `descriptor_key` the abstract identity a
produced signature is recorded under, `derivation_hint` an optional relative
derivation path. -/
structure PlanKey (Ak : Type) where
  asset_key : Ak
  descriptor_key : DescriptorPublicKey
  derivation_hint : DerivationPath
deriving DecidableEq, Repr

/-- The signatures required to complete the plan (`RequiredSignatures<Ak>`). -/
inductive RequiredSignatures (Ak : Type) where
  /-- Legacy ECDSA signatures are required. -/
  | Legacy : List (PlanKey Ak) → RequiredSignatures Ak
  /-- Segwit v0 ECDSA signatures are required. -/
  | Segwitv0 : List (PlanKey Ak) → RequiredSignatures Ak
  /-- A taproot key-spend signature is required: the internal key and the
  merkle root of the taproot output. -/
  | TapKey : PlanKey Ak → Option TapNodeHash → RequiredSignatures Ak
  /-- Taproot script-path signatures are required: the leaf hash of the
  script being used and the keys in it that require signatures. -/
  | TapScript : TapLeafHash → List (PlanKey Ak) → RequiredSignatures Ak
deriving DecidableEq, Repr

/-- Signatures and hash pre-images that must be provided to complete the plan
(`Requirements<Ak>`); the four pre-image collections are sets. -/
structure Requirements (Ak : Type) where
  signatures : RequiredSignatures Ak
  sha256_images : Finset Nat
  hash160_images : Finset Nat
  hash256_images : Finset Nat
  ripemd160_images : Finset Nat

/-- `Requirements::requires_hash_preimages`: whether any hash pre-images are
required in the plan. -/
def Requirements.requires_hash_preimages {Ak : Type} (r : Requirements Ak) : Bool :=
  !(decide (r.sha256_images = ∅) && decide (r.hash160_images = ∅) &&
    decide (r.hash256_images = ∅) && decide (r.ripemd160_images = ∅))

/-- `SigningError` from the source: digest failures for the two digest
algorithms and hierarchical-derivation failures. -/
inductive SigningError where
  | SigHashP2wpkh : P2wpkhError → SigningError
  | SigHashTaproot : TaprootError → SigningError
  | DerivationError : Bip32Error → SigningError
deriving DecidableEq, Repr

/-- Modelled from the spec: `SatisfactionMaterial` (defined in the plan
module of this crate, not under `src/`): the accumulator of produced Schnorr
signatures, a map keyed by the abstract `DescriptorPublicKey` identity,
modelled as an association list whose insert overwrites. -/
structure SatisfactionMaterial where
  schnorr_sigs : List (DescriptorPublicKey × TapSignature)
deriving DecidableEq, Repr

/-- Overwriting insert on an association list (`BTreeMap::insert`). -/
def insertAssoc (l : List (DescriptorPublicKey × TapSignature))
    (k : DescriptorPublicKey) (v : TapSignature) :
    List (DescriptorPublicKey × TapSignature) :=
  match l with
  | [] => [(k, v)]
  | (k', v') :: rest =>
    if k' = k then (k, v) :: rest else (k', v') :: insertAssoc rest k v

/-- `auth_data.schnorr_sigs.insert(descriptor_key, bitcoin_sig)`. -/
def insertSig (m : SatisfactionMaterial) (k : DescriptorPublicKey)
    (v : TapSignature) : SatisfactionMaterial :=
  ⟨insertAssoc m.schnorr_sigs k v⟩

/-- Lookup in the satisfaction material. -/
def findSig (m : SatisfactionMaterial) (k : DescriptorPublicKey) :
    Option TapSignature :=
  match m.schnorr_sigs.find? (fun p => p.1 = k) with
  | none => none
  | some p => some p.2

/-- The recording keys present in the satisfaction material. -/
def materialKeys (m : SatisfactionMaterial) : List DescriptorPublicKey :=
  m.schnorr_sigs.map Prod.fst

/-- Model of the transaction digest engine
(`SighashCache<T>` plus the prevout set handed to each call): the two taproot
digest requests the source makes, each deterministic and fallible. -/
structure SighashCache where
  taproot_key_spend_signature_hash :
    Nat → Prevouts → TapSighashType → Except TaprootError Nat
  taproot_script_spend_signature_hash :
    Nat → Prevouts → TapLeafHash → TapSighashType → Except TaprootError Nat

/-- Outcome of a `sign_with_keymap` call: `Ok(bool)` with the updated
satisfaction material, `Err(SigningError)` with the material as mutated up to
the failure point, or a Rust panic (`todo!()` / `.unwrap()` failure). -/
inductive SignResult where
  | ok : Bool → SatisfactionMaterial → SignResult
  | err : SigningError → SatisfactionMaterial → SignResult
  | panic : SignResult
deriving DecidableEq, Repr

/-- Resolution of a stored `DescriptorSecretKey` against a derivation hint:
the shared `match secret_key { ... }` of both taproot branches of the source
(lines 154-166 and 206-218): a `Single` key is used directly, an `XPrv` is
derived along the hint, a `MultiXPrv` hits `todo!()`. -/
inductive KeyResolution where
  | resolved : Nat → KeyResolution
  | failed : Bip32Error → KeyResolution
  | unimplemented : KeyResolution
deriving DecidableEq, Repr

/-- The shared secret-key resolution match of the source. -/
def resolveSecret (sk : DescriptorSecretKey) (hint : DerivationPath) :
    KeyResolution :=
  match sk with
  | DescriptorSecretKey.Single single => KeyResolution.resolved single
  | DescriptorSecretKey.XPrv xkey =>
    match derivePriv xkey hint with
    | Except.ok k => KeyResolution.resolved k
    | Except.error e => KeyResolution.failed e
  | DescriptorSecretKey.MultiXPrv _ => KeyResolution.unimplemented

/-- The `for plan_key in plan_keys` loop of the `TapScript` branch
(source lines 204-232), carrying the `modified` flag and the mutable
`auth_data`; a derivation failure returns from the whole function via `?`. -/
def tapScriptLoop (sighash : Nat) (sighash_type : TapSighashType)
    (keymap : KeyMap) :
    List (PlanKey DescriptorPublicKey) → Bool → SatisfactionMaterial →
    SignResult
  | [], modified, auth_data => SignResult.ok modified auth_data
  | plan_key :: rest, modified, auth_data =>
    match keymapGet keymap plan_key.asset_key with
    | none => tapScriptLoop sighash sighash_type keymap rest modified auth_data
    | some secret_key =>
      match resolveSecret secret_key plan_key.derivation_hint with
      | KeyResolution.unimplemented => SignResult.panic
      | KeyResolution.failed e =>
        SignResult.err (SigningError.DerivationError e) auth_data
      | KeyResolution.resolved secret_key =>
        let signature := signSchnorrNoAuxRand sighash secret_key
        let bitcoin_sig : TapSignature := ⟨signature, sighash_type⟩
        tapScriptLoop sighash sighash_type keymap rest true
          (insertSig auth_data plan_key.descriptor_key bitcoin_sig)

/-- `RequiredSignatures::sign_with_keymap` (source lines 127-236), with the
mutation of `auth_data` made explicit in the result. -/
def sign_with_keymap (req : RequiredSignatures DescriptorPublicKey)
    (input_index : Nat) (keymap : KeyMap) (prevouts : Prevouts)
    (schnorr_sighashty : Option TapSighashType)
    (_ecdsa_sighashty : Option EcdsaSighashType)
    (sighash_cache : SighashCache)
    (auth_data : SatisfactionMaterial) : SignResult :=
  match req with
  | RequiredSignatures.Legacy _ => SignResult.panic
  | RequiredSignatures.Segwitv0 _ => SignResult.panic
  | RequiredSignatures.TapKey plan_key merkle_root =>
    let ty := schnorr_sighashty.getD TapSighashType.Default
    match sighash_cache.taproot_key_spend_signature_hash input_index prevouts ty with
    | Except.error e => SignResult.err (SigningError.SigHashTaproot e) auth_data
    | Except.ok sighash =>
      match keymapGet keymap plan_key.asset_key with
      | none => SignResult.ok false auth_data
      | some secret_key =>
        match resolveSecret secret_key plan_key.derivation_hint with
        | KeyResolution.unimplemented => SignResult.panic
        | KeyResolution.failed e =>
          SignResult.err (SigningError.DerivationError e) auth_data
        | KeyResolution.resolved secret_key =>
          let pubkey := publicKeyFromSecret secret_key
          let x_only_pubkey := xOnlyFromPublicKey pubkey
          let tweak := tapTweakHash x_only_pubkey merkle_root
          match addXonlyTweak secret_key tweak with
          | none => SignResult.panic
          | some keypair =>
            let sig := signSchnorrNoAuxRand sighash keypair
            let bitcoin_sig : TapSignature := ⟨sig, ty⟩
            SignResult.ok true
              (insertSig auth_data plan_key.descriptor_key bitcoin_sig)
  | RequiredSignatures.TapScript leaf_hash plan_keys =>
    let sighash_type := schnorr_sighashty.getD TapSighashType.Default
    match sighash_cache.taproot_script_spend_signature_hash input_index
        prevouts leaf_hash sighash_type with
    | Except.error e => SignResult.err (SigningError.SigHashTaproot e) auth_data
    | Except.ok sighash =>
      tapScriptLoop sighash sighash_type keymap plan_keys false auth_data

/-- The plan keys carried by a requirement, in source order. -/
def reqPlanKeys : RequiredSignatures DescriptorPublicKey →
    List (PlanKey DescriptorPublicKey)
  | RequiredSignatures.Legacy keys => keys
  | RequiredSignatures.Segwitv0 keys => keys
  | RequiredSignatures.TapKey plan_key _ => [plan_key]
  | RequiredSignatures.TapScript _ plan_keys => plan_keys

/-- Whether at least one of a requirement's keys is present in the key store. -/
def anyResolves (req : RequiredSignatures DescriptorPublicKey)
    (km : KeyMap) : Bool :=
  (reqPlanKeys req).any fun pk => (keymapGet km pk.asset_key).isSome

/-- A digest engine that always answers. -/
def cacheOk : SighashCache :=
  ⟨fun i pv _ => Except.ok (i + pv + 100),
   fun i pv lh _ => Except.ok (i + pv + lh + 200)⟩

/-- A digest engine missing the prevout data it needs. -/
def cacheFail : SighashCache :=
  ⟨fun _ _ _ => Except.error ⟨7⟩, fun _ _ _ _ => Except.error ⟨8⟩⟩

/-- Empty satisfaction material. -/
def emptyAuth : SatisfactionMaterial := ⟨[]⟩

/-- A plan key holding a raw single key in `kmEx`. -/
def pkA : PlanKey DescriptorPublicKey := ⟨1, 11, []⟩

/-- A plan key holding a derivation root in `kmEx`. -/
def pkB : PlanKey DescriptorPublicKey := ⟨2, 22, [3]⟩

/-- A plan key absent from `kmEx`. -/
def pkC : PlanKey DescriptorPublicKey := ⟨9, 99, []⟩

/-- A sample key store. -/
def kmEx : KeyMap := [(1, DescriptorSecretKey.Single 5), (2, DescriptorSecretKey.XPrv 9)]

/-- A sample requirement with hash pre-image requirements. -/
def rEx : Requirements DescriptorPublicKey :=
  ⟨RequiredSignatures.TapKey pkA none, {5, 6}, ∅, {7}, ∅⟩

/-- A key store holding only a multi-path derivation root. -/
def kmMulti : KeyMap := [(3, DescriptorSecretKey.MultiXPrv 4)]

/-- A plan key whose store entry is the multi-path root of `kmMulti`. -/
def pkM : PlanKey DescriptorPublicKey := ⟨3, 33, []⟩

/-- Whether a `sign_with_keymap` outcome is an `Err` return. -/
def SignResult.isErr : SignResult → Bool
  | SignResult.err _ _ => true
  | _ => false

/-- C8: `requires_hash_preimages()` is true iff the union of the four
pre-image digest sets is non-empty, and inserting an already-present digest
into any of the four sets changes neither the set (hence not its cardinality)
nor the value of `requires_hash_preimages()`. -/
theorem requires_hash_preimages_spec {Ak : Type} (r : Requirements Ak) :
    (r.requires_hash_preimages = true ↔
      (r.sha256_images ∪ r.hash160_images ∪ r.hash256_images ∪
        r.ripemd160_images).Nonempty) ∧
    (∀ a ∈ r.sha256_images, insert a r.sha256_images = r.sha256_images ∧
      (insert a r.sha256_images).card = r.sha256_images.card ∧
      Requirements.requires_hash_preimages
        { r with sha256_images := insert a r.sha256_images }
        = r.requires_hash_preimages) ∧
    (∀ a ∈ r.hash160_images, insert a r.hash160_images = r.hash160_images ∧
      (insert a r.hash160_images).card = r.hash160_images.card ∧
      Requirements.requires_hash_preimages
        { r with hash160_images := insert a r.hash160_images }
        = r.requires_hash_preimages) ∧
    (∀ a ∈ r.hash256_images, insert a r.hash256_images = r.hash256_images ∧
      (insert a r.hash256_images).card = r.hash256_images.card ∧
      Requirements.requires_hash_preimages
        { r with hash256_images := insert a r.hash256_images }
        = r.requires_hash_preimages) ∧
    (∀ a ∈ r.ripemd160_images, insert a r.ripemd160_images = r.ripemd160_images ∧
      (insert a r.ripemd160_images).card = r.ripemd160_images.card ∧
      Requirements.requires_hash_preimages
        { r with ripemd160_images := insert a r.ripemd160_images }
        = r.requires_hash_preimages) := by
  refine ⟨?_, ?_, ?_, ?_, ?_⟩
  · simp [Requirements.requires_hash_preimages, Finset.nonempty_iff_ne_empty,
      Finset.union_eq_empty]
    tauto
  all_goals
    intro a ha
    have h := Finset.insert_eq_self.mpr ha
    exact ⟨h, by rw [h], by rw [h]⟩

/-- C8 witness: evaluation of the property on a concrete `Requirements`
value with two of the four sets non-empty. -/
theorem requires_hash_preimages_spec_witness :
    (rEx.requires_hash_preimages = true ↔
      (rEx.sha256_images ∪ rEx.hash160_images ∪ rEx.hash256_images ∪
        rEx.ripemd160_images).Nonempty) ∧
    (∀ a ∈ rEx.sha256_images, insert a rEx.sha256_images = rEx.sha256_images ∧
      (insert a rEx.sha256_images).card = rEx.sha256_images.card ∧
      Requirements.requires_hash_preimages
        { rEx with sha256_images := insert a rEx.sha256_images }
        = rEx.requires_hash_preimages) ∧
    (∀ a ∈ rEx.hash160_images, insert a rEx.hash160_images = rEx.hash160_images ∧
      (insert a rEx.hash160_images).card = rEx.hash160_images.card ∧
      Requirements.requires_hash_preimages
        { rEx with hash160_images := insert a rEx.hash160_images }
        = rEx.requires_hash_preimages) ∧
    (∀ a ∈ rEx.hash256_images, insert a rEx.hash256_images = rEx.hash256_images ∧
      (insert a rEx.hash256_images).card = rEx.hash256_images.card ∧
      Requirements.requires_hash_preimages
        { rEx with hash256_images := insert a rEx.hash256_images }
        = rEx.requires_hash_preimages) ∧
    (∀ a ∈ rEx.ripemd160_images, insert a rEx.ripemd160_images = rEx.ripemd160_images ∧
      (insert a rEx.ripemd160_images).card = rEx.ripemd160_images.card ∧
      Requirements.requires_hash_preimages
        { rEx with ripemd160_images := insert a rEx.ripemd160_images }
        = rEx.requires_hash_preimages) :=
  requires_hash_preimages_spec rEx

/-- C4: when the digest engine fails for the requested taproot digest, both
taproot branches of `sign_with_keymap` return the digest error, tagged
`SigHashTaproot`, with the satisfaction material unchanged. -/
theorem digest_error_propagates (pk : PlanKey DescriptorPublicKey)
    (mroot : Option TapNodeHash) (lh : TapLeafHash)
    (ks : List (PlanKey DescriptorPublicKey))
    (idx : Nat) (km : KeyMap) (pv : Prevouts) (ty : Option TapSighashType)
    (ety : Option EcdsaSighashType) (cache : SighashCache)
    (auth : SatisfactionMaterial) (e1 e2 : TaprootError)
    (h1 : cache.taproot_key_spend_signature_hash idx pv
        (ty.getD TapSighashType.Default) = Except.error e1)
    (h2 : cache.taproot_script_spend_signature_hash idx pv lh
        (ty.getD TapSighashType.Default) = Except.error e2) :
    sign_with_keymap (RequiredSignatures.TapKey pk mroot) idx km pv ty ety
        cache auth
      = SignResult.err (SigningError.SigHashTaproot e1) auth ∧
    sign_with_keymap (RequiredSignatures.TapScript lh ks) idx km pv ty ety
        cache auth
      = SignResult.err (SigningError.SigHashTaproot e2) auth := by
  constructor <;> simp [sign_with_keymap, h1, h2]

/-- C4 witness: a digest engine with missing prevout data makes both taproot
branches fail with the digest error, leaving the material unchanged. -/
theorem digest_error_propagates_witness :
    (cacheFail.taproot_key_spend_signature_hash 0 0
        (Option.getD none TapSighashType.Default) = Except.error ⟨7⟩) ∧
    (cacheFail.taproot_script_spend_signature_hash 0 0 3
        (Option.getD none TapSighashType.Default) = Except.error ⟨8⟩) ∧
    (sign_with_keymap (RequiredSignatures.TapKey pkA none) 0 kmEx 0 none none
        cacheFail emptyAuth
      = SignResult.err (SigningError.SigHashTaproot ⟨7⟩) emptyAuth ∧
    sign_with_keymap (RequiredSignatures.TapScript 3 [pkA]) 0 kmEx 0 none none
        cacheFail emptyAuth
      = SignResult.err (SigningError.SigHashTaproot ⟨8⟩) emptyAuth) :=
  ⟨rfl, rfl, digest_error_propagates pkA none 3 [pkA] 0 kmEx 0 none none
    cacheFail emptyAuth ⟨7⟩ ⟨8⟩ rfl rfl⟩

/-- C5 counterexample: on a Legacy requirement the source hits `todo!()`,
which is a panic (process abort), not an `Err` return: the call does not
return a tagged "not supported" error. -/
theorem unsupported_forms_counterexample :
    sign_with_keymap (RequiredSignatures.Legacy [pkA]) 0 kmEx 0 none none
        cacheOk emptyAuth = SignResult.panic ∧
    SignResult.isErr (sign_with_keymap (RequiredSignatures.Legacy [pkA]) 0 kmEx
        0 none none cacheOk emptyAuth) = false :=
  ⟨rfl, rfl⟩

/-- C5 amended: the Legacy and SegwitV0 branches, and a key whose stored
entry is a multi-path derivation root, reach an explicit `todo!()`
unimplemented case — not silently swallowed, but realized as a panic rather
than a returned "not supported" error. -/
theorem unsupported_forms_panic (keys keys2 : List (PlanKey DescriptorPublicKey))
    (pk : PlanKey DescriptorPublicKey) (mroot : Option TapNodeHash)
    (idx : Nat) (km : KeyMap) (pv : Prevouts) (ty : Option TapSighashType)
    (ety : Option EcdsaSighashType) (cache : SighashCache)
    (auth : SatisfactionMaterial) (x d : Nat)
    (hd : cache.taproot_key_spend_signature_hash idx pv
        (ty.getD TapSighashType.Default) = Except.ok d)
    (hk : keymapGet km pk.asset_key = some (DescriptorSecretKey.MultiXPrv x)) :
    sign_with_keymap (RequiredSignatures.Legacy keys) idx km pv ty ety cache
        auth = SignResult.panic ∧
    sign_with_keymap (RequiredSignatures.Segwitv0 keys2) idx km pv ty ety cache
        auth = SignResult.panic ∧
    sign_with_keymap (RequiredSignatures.TapKey pk mroot) idx km pv ty ety
        cache auth = SignResult.panic := by
  refine ⟨rfl, rfl, ?_⟩
  simp [sign_with_keymap, hd, hk, resolveSecret]

/-- C5 witness for the amended claim: concrete Legacy, SegwitV0 and
multi-path-root calls all reach the unimplemented panic. -/
theorem unsupported_forms_panic_witness :
    (cacheOk.taproot_key_spend_signature_hash 0 0
        (Option.getD none TapSighashType.Default) = Except.ok 100) ∧
    (keymapGet kmMulti pkM.asset_key = some (DescriptorSecretKey.MultiXPrv 4)) ∧
    (sign_with_keymap (RequiredSignatures.Legacy [pkA]) 0 kmMulti 0 none none
        cacheOk emptyAuth = SignResult.panic ∧
    sign_with_keymap (RequiredSignatures.Segwitv0 [pkA]) 0 kmMulti 0 none none
        cacheOk emptyAuth = SignResult.panic ∧
    sign_with_keymap (RequiredSignatures.TapKey pkM none) 0 kmMulti 0 none none
        cacheOk emptyAuth = SignResult.panic) :=
  ⟨rfl, rfl, unsupported_forms_panic [pkA] [pkA] pkM none 0 kmMulti 0 none none
    cacheOk emptyAuth 4 100 rfl rfl⟩

/-- C1: for a `TapKey` requirement whose key resolves in the key store, the
dispatcher signs the key-spend digest with the resolved secret tweaked by the
taproot tweak hash of its x-only public key and the requirement's merkle root
(even-y normalization included, via `evenNorm`), records the signature tagged
with the sighash mode used under the key's abstract `descriptor_key`, and
returns `Ok(true)`. -/
theorem tapkey_signs_tweaked (pk : PlanKey DescriptorPublicKey)
    (mroot : Option TapNodeHash) (idx : Nat) (km : KeyMap) (pv : Prevouts)
    (ty : Option TapSighashType) (ety : Option EcdsaSighashType)
    (cache : SighashCache) (auth : SatisfactionMaterial)
    (d sk : Nat) (dsk : DescriptorSecretKey)
    (hd : cache.taproot_key_spend_signature_hash idx pv
        (ty.getD TapSighashType.Default) = Except.ok d)
    (hk : keymapGet km pk.asset_key = some dsk)
    (hr : resolveSecret dsk pk.derivation_hint = KeyResolution.resolved sk)
    (ht : (evenNorm sk +
        tapTweakHash (xOnlyFromPublicKey (publicKeyFromSecret sk)) mroot) % N
        ≠ 0) :
    sign_with_keymap (RequiredSignatures.TapKey pk mroot) idx km pv ty ety
        cache auth
      = SignResult.ok true (insertSig auth pk.descriptor_key
          ⟨signSchnorrNoAuxRand d ((evenNorm sk +
              tapTweakHash (xOnlyFromPublicKey (publicKeyFromSecret sk))
                mroot) % N),
           ty.getD TapSighashType.Default⟩) := by
  simp [sign_with_keymap, hd, hk, hr, addXonlyTweak, ht]

/-- C1 witness: a concrete `TapKey` requirement with a raw key in the store
produces exactly the tweaked-key signature and reports `Ok(true)`. -/
theorem tapkey_signs_tweaked_witness :
    ((evenNorm 5 +
        tapTweakHash (xOnlyFromPublicKey (publicKeyFromSecret 5)) none) % N
        ≠ 0) ∧
    sign_with_keymap (RequiredSignatures.TapKey pkA none) 0 kmEx 0 none none
        cacheOk emptyAuth
      = SignResult.ok true (insertSig emptyAuth pkA.descriptor_key
          ⟨signSchnorrNoAuxRand 100 ((evenNorm 5 +
              tapTweakHash (xOnlyFromPublicKey (publicKeyFromSecret 5))
                none) % N),
           TapSighashType.Default⟩) :=
  ⟨by decide, tapkey_signs_tweaked pkA none 0 kmEx 0 none none cacheOk
    emptyAuth 100 5 (DescriptorSecretKey.Single 5) rfl rfl rfl (by decide)⟩

/-- C10: a raw `Single` key-store entry is used directly even when the plan
key's `derivation_hint` is non-empty: the hint is ignored, no error is
returned, and both taproot branches still produce a signature from the raw
key. -/
theorem single_key_hint_ignored (pk : PlanKey DescriptorPublicKey)
    (k : Nat) (mroot : Option TapNodeHash) (lh : TapLeafHash)
    (idx : Nat) (km : KeyMap) (pv : Prevouts) (ty : Option TapSighashType)
    (ety : Option EcdsaSighashType) (cache : SighashCache)
    (auth : SatisfactionMaterial) (d d2 : Nat)
    (hhint : pk.derivation_hint ≠ [])
    (hk : keymapGet km pk.asset_key = some (DescriptorSecretKey.Single k))
    (hd : cache.taproot_key_spend_signature_hash idx pv
        (ty.getD TapSighashType.Default) = Except.ok d)
    (hd2 : cache.taproot_script_spend_signature_hash idx pv lh
        (ty.getD TapSighashType.Default) = Except.ok d2)
    (ht : (evenNorm k +
        tapTweakHash (xOnlyFromPublicKey (publicKeyFromSecret k)) mroot) % N
        ≠ 0) :
    resolveSecret (DescriptorSecretKey.Single k) pk.derivation_hint
      = KeyResolution.resolved k ∧
    sign_with_keymap (RequiredSignatures.TapKey pk mroot) idx km pv ty ety
        cache auth
      = SignResult.ok true (insertSig auth pk.descriptor_key
          ⟨signSchnorrNoAuxRand d ((evenNorm k +
              tapTweakHash (xOnlyFromPublicKey (publicKeyFromSecret k))
                mroot) % N),
           ty.getD TapSighashType.Default⟩) ∧
    sign_with_keymap (RequiredSignatures.TapScript lh [pk]) idx km pv ty ety
        cache auth
      = SignResult.ok true (insertSig auth pk.descriptor_key
          ⟨signSchnorrNoAuxRand d2 k, ty.getD TapSighashType.Default⟩) := by
  refine ⟨rfl, ?_, ?_⟩
  · simp [sign_with_keymap, hd, hk, resolveSecret, addXonlyTweak, ht]
  · simp [sign_with_keymap, hd2, tapScriptLoop, hk, resolveSecret]

/-- A plan key with a non-empty derivation hint whose store entry in `kmEx`
is a raw single key. -/
def pkD : PlanKey DescriptorPublicKey := ⟨1, 44, [7]⟩

/-- C10 witness: concrete evaluation with a non-empty hint and a raw single
key: the hint is ignored and signatures are produced in both branches. -/
theorem single_key_hint_ignored_witness :
    (pkD.derivation_hint ≠ []) ∧
    (keymapGet kmEx pkD.asset_key = some (DescriptorSecretKey.Single 5)) ∧
    (resolveSecret (DescriptorSecretKey.Single 5) pkD.derivation_hint
      = KeyResolution.resolved 5 ∧
    sign_with_keymap (RequiredSignatures.TapKey pkD none) 0 kmEx 0 none none
        cacheOk emptyAuth
      = SignResult.ok true (insertSig emptyAuth pkD.descriptor_key
          ⟨signSchnorrNoAuxRand 100 ((evenNorm 5 +
              tapTweakHash (xOnlyFromPublicKey (publicKeyFromSecret 5))
                none) % N),
           TapSighashType.Default⟩) ∧
    sign_with_keymap (RequiredSignatures.TapScript 3 [pkD]) 0 kmEx 0 none none
        cacheOk emptyAuth
      = SignResult.ok true (insertSig emptyAuth pkD.descriptor_key
          ⟨signSchnorrNoAuxRand 203 5, TapSighashType.Default⟩)) :=
  ⟨by decide, rfl, single_key_hint_ignored pkD 5 none 3 0 kmEx 0 none none
    cacheOk emptyAuth 100 203 (by decide) rfl rfl rfl (by decide)⟩

/-- `find?` finds exactly the overwritten binding after an `insertAssoc`. -/
theorem find_insertAssoc (l : List (DescriptorPublicKey × TapSignature))
    (k : DescriptorPublicKey) (v : TapSignature) :
    (insertAssoc l k v).find? (fun p => p.1 = k) = some (k, v) := by
  induction l with
  | nil => simp [insertAssoc]
  | cons hd tl ih =>
    obtain ⟨k', v'⟩ := hd
    by_cases h : k' = k
    · subst h; simp [insertAssoc]
    · simp [insertAssoc, h, ih]

/-- A signature survives in the material under the key it was inserted at. -/
theorem findSig_insertSig (m : SatisfactionMaterial) (k : DescriptorPublicKey)
    (v : TapSignature) : findSig (insertSig m k v) k = some v := by
  simp [findSig, insertSig, find_insertAssoc]

/-- C9: in the `TapScript` loop, a derivation failure on a later key after an
earlier key has already produced a signature returns `DerivationError` while
the earlier signature stays recorded in the material handed back with the
error; the boolean "signatures were produced" is not reported. -/
theorem tapscript_error_keeps_prior_sigs
    (pk1 pk2 : PlanKey DescriptorPublicKey)
    (rest : List (PlanKey DescriptorPublicKey))
    (lh : TapLeafHash) (idx : Nat) (km : KeyMap) (pv : Prevouts)
    (ty : Option TapSighashType) (ety : Option EcdsaSighashType)
    (cache : SighashCache) (auth : SatisfactionMaterial)
    (d sk1 x : Nat) (dsk1 : DescriptorSecretKey) (e : Bip32Error)
    (hd : cache.taproot_script_spend_signature_hash idx pv lh
        (ty.getD TapSighashType.Default) = Except.ok d)
    (h1 : keymapGet km pk1.asset_key = some dsk1)
    (hr1 : resolveSecret dsk1 pk1.derivation_hint = KeyResolution.resolved sk1)
    (h2 : keymapGet km pk2.asset_key = some (DescriptorSecretKey.XPrv x))
    (hr2 : derivePriv x pk2.derivation_hint = Except.error e) :
    sign_with_keymap (RequiredSignatures.TapScript lh (pk1 :: pk2 :: rest))
        idx km pv ty ety cache auth
      = SignResult.err (SigningError.DerivationError e)
          (insertSig auth pk1.descriptor_key
            ⟨signSchnorrNoAuxRand d sk1, ty.getD TapSighashType.Default⟩) ∧
    findSig (insertSig auth pk1.descriptor_key
        ⟨signSchnorrNoAuxRand d sk1, ty.getD TapSighashType.Default⟩)
        pk1.descriptor_key
      = some ⟨signSchnorrNoAuxRand d sk1, ty.getD TapSighashType.Default⟩ := by
  constructor
  · simp only [sign_with_keymap, hd]
    simp only [tapScriptLoop, h1, hr1]
    simp only [tapScriptLoop, h2, resolveSecret, hr2]
  · exact findSig_insertSig auth pk1.descriptor_key _

/-- A plan key whose store entry is a derivation root and whose hint holds an
invalid child index. -/
def pkBad : PlanKey DescriptorPublicKey := ⟨2, 22, [4294967296]⟩

/-- C9 witness: concrete two-key `TapScript` run where the second key's
derivation fails: the error is returned and the first key's signature is
still present in the returned material. -/
theorem tapscript_error_keeps_prior_sigs_witness :
    (keymapGet kmEx pkBad.asset_key = some (DescriptorSecretKey.XPrv 9)) ∧
    (derivePriv 9 pkBad.derivation_hint = Except.error ⟨4294967296⟩) ∧
    (sign_with_keymap (RequiredSignatures.TapScript 3 (pkA :: pkBad :: []))
        0 kmEx 0 none none cacheOk emptyAuth
      = SignResult.err (SigningError.DerivationError ⟨4294967296⟩)
          (insertSig emptyAuth pkA.descriptor_key
            ⟨signSchnorrNoAuxRand 203 5, TapSighashType.Default⟩) ∧
    findSig (insertSig emptyAuth pkA.descriptor_key
        ⟨signSchnorrNoAuxRand 203 5, TapSighashType.Default⟩)
        pkA.descriptor_key
      = some ⟨signSchnorrNoAuxRand 203 5, TapSighashType.Default⟩) :=
  ⟨rfl, rfl, tapscript_error_keeps_prior_sigs pkA pkBad [] 3 0 kmEx 0
    none none cacheOk emptyAuth 203 5 9 (DescriptorSecretKey.Single 5)
    ⟨4294967296⟩ rfl rfl rfl rfl rfl⟩

/-- If the `TapScript` loop returns `Ok`, the reported boolean is the initial
flag or-ed with "some key of the list is present in the key store", and when
no key is present the material is handed back unchanged. -/
theorem tapScriptLoop_ok_spec (d : Nat) (ty : TapSighashType) (km : KeyMap) :
    ∀ (ks : List (PlanKey DescriptorPublicKey)) (b : Bool)
      (auth : SatisfactionMaterial) (b2 : Bool) (m2 : SatisfactionMaterial),
      tapScriptLoop d ty km ks b auth = SignResult.ok b2 m2 →
      b2 = (b || ks.any fun pk => (keymapGet km pk.asset_key).isSome) ∧
      ((ks.any fun pk => (keymapGet km pk.asset_key).isSome) = false →
        m2 = auth) := by
  intro ks
  induction ks with
  | nil =>
    intro b auth b2 m2 h
    simp only [tapScriptLoop, SignResult.ok.injEq] at h
    simp [h.1, h.2]
  | cons pk rest ih =>
    intro b auth b2 m2 h
    cases hk : keymapGet km pk.asset_key with
    | none =>
      simp only [tapScriptLoop, hk] at h
      have hcons : ((pk :: rest).any fun k => (keymapGet km k.asset_key).isSome)
          = (rest.any fun k => (keymapGet km k.asset_key).isSome) := by
        simp [hk]
      rw [hcons]
      exact ih b auth b2 m2 h
    | some dsk =>
      simp only [tapScriptLoop, hk] at h
      cases hr : resolveSecret dsk pk.derivation_hint with
      | unimplemented => simp [hr] at h
      | failed e => simp [hr] at h
      | resolved sk =>
        simp only [hr] at h
        obtain ⟨e1, _⟩ := ih true _ b2 m2 h
        constructor
        · rw [e1]; simp [hk]
        · intro hf; simp [hk] at hf

/-- The `TapScript` loop consults the key store only at the `asset_key` of
each plan key: stores agreeing there are interchangeable. -/
theorem tapScriptLoop_agree (d : Nat) (ty : TapSighashType) (km1 km2 : KeyMap) :
    ∀ (ks : List (PlanKey DescriptorPublicKey)),
      (∀ pk ∈ ks, keymapGet km1 pk.asset_key = keymapGet km2 pk.asset_key) →
      ∀ (b : Bool) (auth : SatisfactionMaterial),
        tapScriptLoop d ty km1 ks b auth = tapScriptLoop d ty km2 ks b auth := by
  intro ks
  induction ks with
  | nil => intro _ b auth; rfl
  | cons pk rest ih =>
    intro hag b auth
    have hpk := hag pk (List.mem_cons_self pk rest)
    have hrest := fun k hk => hag k (List.mem_cons_of_mem pk hk)
    simp only [tapScriptLoop]
    rw [hpk]
    cases hk2 : keymapGet km2 pk.asset_key with
    | none => simp only [hk2]; exact ih hrest b auth
    | some dsk =>
      simp only [hk2]
      cases hr : resolveSecret dsk pk.derivation_hint with
      | unimplemented => simp only [hr]
      | failed e => simp only [hr]
      | resolved sk => simp only [hr]; exact ih hrest true _

/-- Keys present after an `insertAssoc` are the inserted key or keys already
present. -/
theorem insertAssoc_keys (l : List (DescriptorPublicKey × TapSignature))
    (k : DescriptorPublicKey) (v : TapSignature) :
    ∀ k', k' ∈ (insertAssoc l k v).map Prod.fst →
      k' = k ∨ k' ∈ l.map Prod.fst := by
  induction l with
  | nil => intro k' h; simp [insertAssoc] at h; exact Or.inl h
  | cons hd tl ih =>
    obtain ⟨k0, v0⟩ := hd
    intro k' h
    by_cases he : k0 = k
    · subst he
      rw [show insertAssoc ((k0, v0) :: tl) k0 v = (k0, v) :: tl from by
        simp [insertAssoc]] at h
      rw [List.map_cons, List.mem_cons] at h
      rcases h with h | h
      · exact Or.inl h
      · exact Or.inr (by simp [h])
    · rw [show insertAssoc ((k0, v0) :: tl) k v = (k0, v0) :: insertAssoc tl k v
        from by simp [insertAssoc, he]] at h
      rw [List.map_cons, List.mem_cons] at h
      rcases h with h | h
      · exact Or.inr (by simp [h])
      · rcases ih k' h with h2 | h2
        · exact Or.inl h2
        · exact Or.inr (by simp [h2])

/-- Every recording key in the material produced by the `TapScript` loop was
already present or is the `descriptor_key` of one of the processed plan
keys. -/
theorem tapScriptLoop_keys (d : Nat) (ty : TapSighashType) (km : KeyMap) :
    ∀ (ks : List (PlanKey DescriptorPublicKey)) (b : Bool)
      (auth : SatisfactionMaterial) (b2 : Bool) (m2 : SatisfactionMaterial),
      tapScriptLoop d ty km ks b auth = SignResult.ok b2 m2 →
      ∀ k, k ∈ materialKeys m2 →
        k ∈ materialKeys auth ∨ k ∈ ks.map fun pk => pk.descriptor_key := by
  intro ks
  induction ks with
  | nil =>
    intro b auth b2 m2 h k hkm
    simp only [tapScriptLoop, SignResult.ok.injEq] at h
    rw [← h.2] at hkm
    exact Or.inl hkm
  | cons pk rest ih =>
    intro b auth b2 m2 h k hkm
    cases hk : keymapGet km pk.asset_key with
    | none =>
      simp only [tapScriptLoop, hk] at h
      rcases ih b auth b2 m2 h k hkm with h2 | h2
      · exact Or.inl h2
      · exact Or.inr (by simp [h2])
    | some dsk =>
      simp only [tapScriptLoop, hk] at h
      cases hr : resolveSecret dsk pk.derivation_hint with
      | unimplemented => simp [hr] at h
      | failed e => simp [hr] at h
      | resolved sk =>
        simp only [hr] at h
        rcases ih true _ b2 m2 h k hkm with h2 | h2
        · rcases insertAssoc_keys auth.schnorr_sigs pk.descriptor_key _ k h2
            with h3 | h3
          · exact Or.inr (by simp [h3])
          · exact Or.inl h3
        · exact Or.inr (by simp [h2])

/-- C3: whenever `sign_with_keymap` returns `Ok`, the boolean is true iff at
least one of the requirement's keys is present in the key store, and a false
return hands the satisfaction material back unchanged (a store miss is not an
error). -/
theorem modified_iff_key_available
    (req : RequiredSignatures DescriptorPublicKey)
    (idx : Nat) (km : KeyMap) (pv : Prevouts) (ty : Option TapSighashType)
    (ety : Option EcdsaSighashType) (cache : SighashCache)
    (auth : SatisfactionMaterial) (b : Bool) (m2 : SatisfactionMaterial)
    (h : sign_with_keymap req idx km pv ty ety cache auth
      = SignResult.ok b m2) :
    b = anyResolves req km ∧ (b = false → m2 = auth) := by
  cases req with
  | Legacy keys => simp [sign_with_keymap] at h
  | Segwitv0 keys => simp [sign_with_keymap] at h
  | TapKey pk mroot =>
    cases hd : cache.taproot_key_spend_signature_hash idx pv
        (ty.getD TapSighashType.Default) with
    | error e => simp only [sign_with_keymap, hd] at h; simp at h
    | ok d =>
      simp only [sign_with_keymap, hd] at h
      cases hk : keymapGet km pk.asset_key with
      | none =>
        simp only [hk, SignResult.ok.injEq] at h
        refine ⟨by rw [← h.1]; simp [anyResolves, reqPlanKeys, hk], ?_⟩
        intro _
        exact h.2.symm
      | some dsk =>
        simp only [hk] at h
        cases hr : resolveSecret dsk pk.derivation_hint with
        | failed e => simp only [hr] at h; simp at h
        | unimplemented => simp only [hr] at h; simp at h
        | resolved sk =>
          simp only [hr] at h
          cases htw : addXonlyTweak sk
              (tapTweakHash (xOnlyFromPublicKey (publicKeyFromSecret sk))
                mroot) with
          | none => simp only [htw] at h; simp at h
          | some tk =>
            simp only [htw, SignResult.ok.injEq] at h
            refine ⟨by rw [← h.1]; simp [anyResolves, reqPlanKeys, hk], ?_⟩
            intro hb
            rw [← h.1] at hb
            simp at hb
  | TapScript lh ks =>
    cases hd : cache.taproot_script_spend_signature_hash idx pv lh
        (ty.getD TapSighashType.Default) with
    | error e => simp only [sign_with_keymap, hd] at h; simp at h
    | ok d =>
      simp only [sign_with_keymap, hd] at h
      obtain ⟨e1, e2⟩ := tapScriptLoop_ok_spec d
        (ty.getD TapSighashType.Default) km ks false auth b m2 h
      refine ⟨by rw [e1]; simp [anyResolves, reqPlanKeys], ?_⟩
      intro hb
      apply e2
      rw [e1] at hb
      simpa using hb

/-- C3 witness: a two-key `TapScript` requirement against an empty key store
returns `Ok(false)` and leaves the material untouched. -/
theorem modified_iff_key_available_witness :
    (sign_with_keymap (RequiredSignatures.TapScript 3 [pkA, pkC]) 0
        ([] : KeyMap) 0 none none cacheOk emptyAuth
      = SignResult.ok false emptyAuth) ∧
    (false = anyResolves (RequiredSignatures.TapScript 3 [pkA, pkC]) [] ∧
      (false = false → emptyAuth = emptyAuth)) :=
  ⟨rfl, modified_iff_key_available (RequiredSignatures.TapScript 3 [pkA, pkC])
    0 [] 0 none none cacheOk emptyAuth false emptyAuth rfl⟩

/-- A second key store agreeing with `kmEx` on `pkA`'s lookup key only. -/
def km2Ex : KeyMap :=
  [(1, DescriptorSecretKey.Single 5), (3, DescriptorSecretKey.MultiXPrv 4)]

/-- C7: the key-store lookup uses only each plan key's `asset_key` (stores
agreeing on those are interchangeable, so the `descriptor_key` is never used
for lookup), and every signature recorded by a successful call is recorded
under some plan key's `descriptor_key` (the `asset_key` is never a recording
key beyond what was already in the material). -/
theorem lookup_by_asset_key_record_by_descriptor_key
    (req : RequiredSignatures DescriptorPublicKey)
    (idx : Nat) (km1 km2 : KeyMap) (pv : Prevouts) (ty : Option TapSighashType)
    (ety : Option EcdsaSighashType) (cache : SighashCache)
    (auth : SatisfactionMaterial)
    (hag : ∀ pk ∈ reqPlanKeys req,
      keymapGet km1 pk.asset_key = keymapGet km2 pk.asset_key) :
    sign_with_keymap req idx km1 pv ty ety cache auth
      = sign_with_keymap req idx km2 pv ty ety cache auth ∧
    (∀ (b : Bool) (m2 : SatisfactionMaterial),
      sign_with_keymap req idx km1 pv ty ety cache auth
        = SignResult.ok b m2 →
      ∀ k, k ∈ materialKeys m2 →
        k ∈ materialKeys auth ∨
        k ∈ (reqPlanKeys req).map fun pk => pk.descriptor_key) := by
  cases req with
  | Legacy keys =>
    exact ⟨rfl, by intro b m2 h; simp [sign_with_keymap] at h⟩
  | Segwitv0 keys =>
    exact ⟨rfl, by intro b m2 h; simp [sign_with_keymap] at h⟩
  | TapKey pk mroot =>
    have hpk : keymapGet km1 pk.asset_key = keymapGet km2 pk.asset_key :=
      hag pk (by simp [reqPlanKeys])
    constructor
    · simp only [sign_with_keymap, hpk]
    · intro b m2 h k hkm
      cases hd : cache.taproot_key_spend_signature_hash idx pv
          (ty.getD TapSighashType.Default) with
      | error e => simp only [sign_with_keymap, hd] at h; simp at h
      | ok d =>
        simp only [sign_with_keymap, hd] at h
        cases hk1 : keymapGet km1 pk.asset_key with
        | none =>
          simp only [hk1, SignResult.ok.injEq] at h
          rw [← h.2] at hkm
          exact Or.inl hkm
        | some dsk =>
          simp only [hk1] at h
          cases hr : resolveSecret dsk pk.derivation_hint with
          | failed e => simp only [hr] at h; simp at h
          | unimplemented => simp only [hr] at h; simp at h
          | resolved sk =>
            simp only [hr] at h
            cases htw : addXonlyTweak sk
                (tapTweakHash (xOnlyFromPublicKey (publicKeyFromSecret sk))
                  mroot) with
            | none => simp only [htw] at h; simp at h
            | some tk =>
              simp only [htw, SignResult.ok.injEq] at h
              rw [← h.2] at hkm
              rcases insertAssoc_keys auth.schnorr_sigs pk.descriptor_key _ k
                hkm with h3 | h3
              · exact Or.inr (by simp [reqPlanKeys, h3])
              · exact Or.inl h3
  | TapScript lh ks =>
    constructor
    · simp only [sign_with_keymap]
      cases hd : cache.taproot_script_spend_signature_hash idx pv lh
          (ty.getD TapSighashType.Default) with
      | error e => simp only [hd]
      | ok d =>
        simp only [hd]
        exact tapScriptLoop_agree d (ty.getD TapSighashType.Default) km1 km2 ks
          (by simpa [reqPlanKeys] using hag) false auth
    · intro b m2 h k hkm
      cases hd : cache.taproot_script_spend_signature_hash idx pv lh
          (ty.getD TapSighashType.Default) with
      | error e => simp only [sign_with_keymap, hd] at h; simp at h
      | ok d =>
        simp only [sign_with_keymap, hd] at h
        simpa [reqPlanKeys] using tapScriptLoop_keys d
          (ty.getD TapSighashType.Default) km1 ks false auth b m2 h k hkm

/-- C7 witness: two concrete stores agreeing only on the plan key's lookup
identity give identical results, and the recorded keys come from the plan
key's `descriptor_key`. -/
theorem lookup_by_asset_key_record_by_descriptor_key_witness :
    (sign_with_keymap (RequiredSignatures.TapScript 3 [pkA]) 0 kmEx 0 none
        none cacheOk emptyAuth
      = sign_with_keymap (RequiredSignatures.TapScript 3 [pkA]) 0 km2Ex 0 none
          none cacheOk emptyAuth) ∧
    (∀ (b : Bool) (m2 : SatisfactionMaterial),
      sign_with_keymap (RequiredSignatures.TapScript 3 [pkA]) 0 kmEx 0 none
          none cacheOk emptyAuth = SignResult.ok b m2 →
      ∀ k, k ∈ materialKeys m2 →
        k ∈ materialKeys emptyAuth ∨
        k ∈ (reqPlanKeys (RequiredSignatures.TapScript 3 [pkA])).map
          fun pk => pk.descriptor_key) :=
  lookup_by_asset_key_record_by_descriptor_key
    (RequiredSignatures.TapScript 3 [pkA]) 0 kmEx km2Ex 0 none none cacheOk
    emptyAuth (by decide)

/-- A digest engine returning the same digest value for the key-spend and
script-spend requests. -/
def cacheSame : SighashCache :=
  ⟨fun _ _ _ => Except.ok 42, fun _ _ _ _ => Except.ok 42⟩

/-- C2: a resolving key in a `TapScript` requirement signs the script-spend
digest with the untweaked resolved secret (the loop step inserts exactly
`signSchnorrNoAuxRand digest sk`, with no tweak applied, whatever position
the key occupies), and — provided the taproot tweak actually moves the
signing key, which fails only on a hash collision — the signature differs
from the tweaked signature the `TapKey` branch records for the same secret
key and the same digest value. -/
theorem tapscript_signs_untweaked (pk : PlanKey DescriptorPublicKey)
    (mroot : Option TapNodeHash) (lh : TapLeafHash)
    (idx : Nat) (km : KeyMap) (pv : Prevouts) (ty : Option TapSighashType)
    (ety : Option EcdsaSighashType) (cache : SighashCache)
    (auth : SatisfactionMaterial) (d sk : Nat) (dsk : DescriptorSecretKey)
    (hk : keymapGet km pk.asset_key = some dsk)
    (hr : resolveSecret dsk pk.derivation_hint = KeyResolution.resolved sk)
    (hd1 : cache.taproot_key_spend_signature_hash idx pv
        (ty.getD TapSighashType.Default) = Except.ok d)
    (hd2 : cache.taproot_script_spend_signature_hash idx pv lh
        (ty.getD TapSighashType.Default) = Except.ok d)
    (ht : (evenNorm sk +
        tapTweakHash (xOnlyFromPublicKey (publicKeyFromSecret sk)) mroot) % N
        ≠ 0)
    (hne : evenNorm ((evenNorm sk +
        tapTweakHash (xOnlyFromPublicKey (publicKeyFromSecret sk)) mroot) % N)
        ≠ evenNorm sk) :
    (∀ (rest : List (PlanKey DescriptorPublicKey)) (b0 : Bool)
        (auth0 : SatisfactionMaterial),
      tapScriptLoop d (ty.getD TapSighashType.Default) km (pk :: rest) b0 auth0
        = tapScriptLoop d (ty.getD TapSighashType.Default) km rest true
            (insertSig auth0 pk.descriptor_key
              ⟨signSchnorrNoAuxRand d sk, ty.getD TapSighashType.Default⟩)) ∧
    sign_with_keymap (RequiredSignatures.TapScript lh [pk]) idx km pv ty ety
        cache auth
      = SignResult.ok true (insertSig auth pk.descriptor_key
          ⟨signSchnorrNoAuxRand d sk, ty.getD TapSighashType.Default⟩) ∧
    sign_with_keymap (RequiredSignatures.TapKey pk mroot) idx km pv ty ety
        cache auth
      = SignResult.ok true (insertSig auth pk.descriptor_key
          ⟨signSchnorrNoAuxRand d ((evenNorm sk +
              tapTweakHash (xOnlyFromPublicKey (publicKeyFromSecret sk))
                mroot) % N),
           ty.getD TapSighashType.Default⟩) ∧
    signSchnorrNoAuxRand d ((evenNorm sk +
        tapTweakHash (xOnlyFromPublicKey (publicKeyFromSecret sk)) mroot) % N)
      ≠ signSchnorrNoAuxRand d sk := by
  refine ⟨?_, ?_, ?_, ?_⟩
  · intro rest b0 auth0
    simp only [tapScriptLoop, hk, hr]
  · simp [sign_with_keymap, hd2, tapScriptLoop, hk, hr]
  · simp [sign_with_keymap, hd1, hk, hr, addXonlyTweak, ht]
  · simp only [signSchnorrNoAuxRand, signSchnorrWithAuxRand, ne_eq,
      SchnorrSig.mk.injEq, true_and, and_true]
    exact hne

/-- C2 witness: for a concrete secret key and one digest value served to both
branches, the `TapScript` branch records the untweaked signature and it
differs from the `TapKey` branch's tweaked signature. -/
theorem tapscript_signs_untweaked_witness :
    ((evenNorm 5 +
        tapTweakHash (xOnlyFromPublicKey (publicKeyFromSecret 5)) none) % N
        ≠ 0) ∧
    (evenNorm ((evenNorm 5 +
        tapTweakHash (xOnlyFromPublicKey (publicKeyFromSecret 5)) none) % N)
        ≠ evenNorm 5) ∧
    ((∀ (rest : List (PlanKey DescriptorPublicKey)) (b0 : Bool)
        (auth0 : SatisfactionMaterial),
      tapScriptLoop 42 TapSighashType.Default kmEx (pkA :: rest) b0 auth0
        = tapScriptLoop 42 TapSighashType.Default kmEx rest true
            (insertSig auth0 pkA.descriptor_key
              ⟨signSchnorrNoAuxRand 42 5, TapSighashType.Default⟩)) ∧
    sign_with_keymap (RequiredSignatures.TapScript 3 [pkA]) 0 kmEx 0 none none
        cacheSame emptyAuth
      = SignResult.ok true (insertSig emptyAuth pkA.descriptor_key
          ⟨signSchnorrNoAuxRand 42 5, TapSighashType.Default⟩) ∧
    sign_with_keymap (RequiredSignatures.TapKey pkA none) 0 kmEx 0 none none
        cacheSame emptyAuth
      = SignResult.ok true (insertSig emptyAuth pkA.descriptor_key
          ⟨signSchnorrNoAuxRand 42 ((evenNorm 5 +
              tapTweakHash (xOnlyFromPublicKey (publicKeyFromSecret 5))
                none) % N),
           TapSighashType.Default⟩) ∧
    signSchnorrNoAuxRand 42 ((evenNorm 5 +
        tapTweakHash (xOnlyFromPublicKey (publicKeyFromSecret 5)) none) % N)
      ≠ signSchnorrNoAuxRand 42 5) :=
  ⟨by decide, by decide, tapscript_signs_untweaked pkA none 3 0 kmEx 0 none
    none cacheSame emptyAuth 42 5 (DescriptorSecretKey.Single 5) rfl rfl rfl
    rfl (by decide) (by decide)⟩

/-- C6: signing is deterministic: repeated invocations on identical inputs
produce identical results, and both taproot branches record the BIP340
signature with the auxiliary randomness fixed to zero
(`signSchnorrWithAuxRand _ _ 0`), so no randomness enters the signature. -/
theorem signing_deterministic (pk : PlanKey DescriptorPublicKey)
    (mroot : Option TapNodeHash) (lh : TapLeafHash)
    (idx : Nat) (km : KeyMap) (pv : Prevouts) (ty : Option TapSighashType)
    (ety : Option EcdsaSighashType) (cache : SighashCache)
    (auth : SatisfactionMaterial) (d d2 sk tk : Nat)
    (dsk : DescriptorSecretKey)
    (hd : cache.taproot_key_spend_signature_hash idx pv
        (ty.getD TapSighashType.Default) = Except.ok d)
    (hk : keymapGet km pk.asset_key = some dsk)
    (hr : resolveSecret dsk pk.derivation_hint = KeyResolution.resolved sk)
    (ht : addXonlyTweak sk
        (tapTweakHash (xOnlyFromPublicKey (publicKeyFromSecret sk)) mroot)
        = some tk)
    (hd2 : cache.taproot_script_spend_signature_hash idx pv lh
        (ty.getD TapSighashType.Default) = Except.ok d2) :
    sign_with_keymap (RequiredSignatures.TapKey pk mroot) idx km pv ty ety
        cache auth
      = sign_with_keymap (RequiredSignatures.TapKey pk mroot) idx km pv ty ety
          cache auth ∧
    sign_with_keymap (RequiredSignatures.TapKey pk mroot) idx km pv ty ety
        cache auth
      = SignResult.ok true (insertSig auth pk.descriptor_key
          ⟨signSchnorrWithAuxRand d tk 0, ty.getD TapSighashType.Default⟩) ∧
    sign_with_keymap (RequiredSignatures.TapScript lh [pk]) idx km pv ty ety
        cache auth
      = SignResult.ok true (insertSig auth pk.descriptor_key
          ⟨signSchnorrWithAuxRand d2 sk 0, ty.getD TapSighashType.Default⟩) := by
  refine ⟨rfl, ?_, ?_⟩
  · simp [sign_with_keymap, hd, hk, hr, ht, signSchnorrNoAuxRand]
  · simp [sign_with_keymap, hd2, tapScriptLoop, hk, hr, signSchnorrNoAuxRand]

/-- C6 witness: concrete evaluation showing both branches record the zero-aux
deterministic signature. -/
theorem signing_deterministic_witness :
    (addXonlyTweak 5
        (tapTweakHash (xOnlyFromPublicKey (publicKeyFromSecret 5)) none)
      = some ((evenNorm 5 +
          tapTweakHash (xOnlyFromPublicKey (publicKeyFromSecret 5)) none)
          % N)) ∧
    (sign_with_keymap (RequiredSignatures.TapKey pkA none) 0 kmEx 0 none none
        cacheOk emptyAuth
      = sign_with_keymap (RequiredSignatures.TapKey pkA none) 0 kmEx 0 none
          none cacheOk emptyAuth ∧
    sign_with_keymap (RequiredSignatures.TapKey pkA none) 0 kmEx 0 none none
        cacheOk emptyAuth
      = SignResult.ok true (insertSig emptyAuth pkA.descriptor_key
          ⟨signSchnorrWithAuxRand 100 ((evenNorm 5 +
              tapTweakHash (xOnlyFromPublicKey (publicKeyFromSecret 5))
                none) % N) 0,
           TapSighashType.Default⟩) ∧
    sign_with_keymap (RequiredSignatures.TapScript 3 [pkA]) 0 kmEx 0 none none
        cacheOk emptyAuth
      = SignResult.ok true (insertSig emptyAuth pkA.descriptor_key
          ⟨signSchnorrWithAuxRand 203 5 0, TapSighashType.Default⟩)) :=
  ⟨by decide, signing_deterministic pkA none 3 0 kmEx 0 none none cacheOk
    emptyAuth 100 203 5 _ (DescriptorSecretKey.Single 5) rfl rfl rfl
    (by decide) rfl⟩
